import Mathlib

/-!
Verification development for the @struktos/adapter-grpc repository: a shallow
embedding of the interceptor pipeline (src/interceptors/struktos-interceptor.ts),
the context factory and cancellation bridge (src/context/factory.ts) and the
id-generator utilities (src/utils/id-generator.ts), together with theorems
settling the behavioural claims about those components.

Conventions of the embedding:
* JavaScript machine integers appearing here (timestamps, status codes) are
  modelled as Nat or Int; no arithmetic in the modelled code can overflow a
  JS double in its intended range, so no modular reduction is needed.
* The ambient clock (Date.now()) and the random suffix (Math.random-derived)
  are explicit parameters of the modelled functions.
* Fallible or fuel-bounded execution returns Option; none means the fuel was
  exhausted (the JS original would still be looping).
-/

/- gRPC status codes used by the adapter: the numeric values of the status
enum of @grpc/grpc-js (external collaborator, stable wire constants). -/

namespace GrpcStatusCode

def OK : Int := 0

def CANCELLED : Int := 1

def INVALID_ARGUMENT : Int := 3

def DEADLINE_EXCEEDED : Int := 4

def NOT_FOUND : Int := 5

def ALREADY_EXISTS : Int := 6

def PERMISSION_DENIED : Int := 7

def RESOURCE_EXHAUSTED : Int := 8

def UNIMPLEMENTED : Int := 12

def INTERNAL : Int := 13

def UNAVAILABLE : Int := 14

def UNAUTHENTICATED : Int := 16

end GrpcStatusCode

/-- Translation table of StruktosInterceptor.httpStatusToGrpcStatus
(struktos-interceptor.ts lines 371-388): a fixed record from HTTP-like
status codes to gRPC codes, with `?? GrpcStatus.INTERNAL` as the fallback
for any code outside the table. -/
def httpStatusToGrpcStatus (httpStatus : Nat) : Int :=
  match httpStatus with
  | 200 => GrpcStatusCode.OK
  | 400 => GrpcStatusCode.INVALID_ARGUMENT
  | 401 => GrpcStatusCode.UNAUTHENTICATED
  | 403 => GrpcStatusCode.PERMISSION_DENIED
  | 404 => GrpcStatusCode.NOT_FOUND
  | 409 => GrpcStatusCode.ALREADY_EXISTS
  | 429 => GrpcStatusCode.RESOURCE_EXHAUSTED
  | 499 => GrpcStatusCode.CANCELLED
  | 500 => GrpcStatusCode.INTERNAL
  | 501 => GrpcStatusCode.UNIMPLEMENTED
  | 503 => GrpcStatusCode.UNAVAILABLE
  | 504 => GrpcStatusCode.DEADLINE_EXCEEDED
  | _ => GrpcStatusCode.INTERNAL

/-- The HTTP-like status codes that appear as keys of the translation table. -/
def grpcMappingKeys : List Nat := [200, 400, 401, 403, 404, 409, 429, 499, 500, 501, 503, 504]

/-- Model of a JavaScript Error value as the adapter inspects it: the message
string plus the optional numeric fields code, statusCode and status (an absent
field is none).  The source reads these fields dynamically off the error
object. -/
structure JsError where
  message : String
  code : Option Int := none
  statusCode : Option Nat := none
  status : Option Nat := none
deriving DecidableEq

/-- Status object delivered to the gRPC callback (code plus details message).
The metadata attached by the source to some error responses carries no
information the claims are about and is not modelled. -/
structure StatusObject where
  code : Int
  details : String
deriving DecidableEq

/-- JS truthiness filter for an optional numeric field: the number 0 is falsy,
so `x.statusCode || x.status` skips a present-but-zero field. -/
def jsTruthyNat : Option Nat → Option Nat
  | some 0 => none
  | some n => some n
  | none => none

/-- The `error.statusCode || error.status` read in defaultErrorTransformer
(struktos-interceptor.ts line 349), with JS truthiness. -/
def httpLikeStatusOf (e : JsError) : Option Nat :=
  match jsTruthyNat e.statusCode with
  | some n => some n
  | none => jsTruthyNat e.status

/-- StruktosInterceptor.defaultErrorTransformer (struktos-interceptor.ts
lines 347-366): start from INTERNAL, map an HTTP-like statusCode/status field
through the table if one is truthy, then let an explicit numeric `code` field
win outright. -/
def defaultErrorTransformer (e : JsError) : StatusObject :=
  let grpcCode0 : Int := GrpcStatusCode.INTERNAL
  let grpcCode1 : Int :=
    match httpLikeStatusOf e with
    | some sc => httpStatusToGrpcStatus sc
    | none => grpcCode0
  let grpcCode2 : Int :=
    match e.code with
    | some c => c
    | none => grpcCode1
  { code := grpcCode2, details := e.message }

/- String scanning helpers modelling JS String.prototype.includes and
String.prototype.toLowerCase (ASCII range, which is all the source compares). -/

/-- Boolean test that `pat` occurs at the start of `s` (helper for the
includes model). -/
def startsWithCh : List Char → List Char → Bool
  | _, [] => true
  | [], _ :: _ => false
  | a :: as, b :: bs => a == b && startsWithCh as bs

/-- Boolean test that `pat` occurs somewhere inside `s`, scanning every
position (the semantics of JS includes). -/
def containsSub : List Char → List Char → Bool
  | [], pat => startsWithCh [] pat
  | c :: t, pat => startsWithCh (c :: t) pat || containsSub t pat

/-- Model of JS toLowerCase restricted to ASCII (all vocabulary the source
compares is ASCII). -/
def lowerStr (s : String) : String := String.mk (s.data.map Char.toLower)

/-- Model of JS s.includes(pat). -/
def strIncludes (s pat : String) : Bool := containsSub s.data pat.data

/-- GrpcContextFactory.isCancellationError (factory.ts lines 248-256): the
lowercased message contains cancellation/deadline vocabulary, or the error
carries the gRPC CANCELLED code 1. -/
def isCancellationError (e : JsError) : Bool :=
  strIncludes (lowerStr e.message) "cancelled" ||
  strIncludes (lowerStr e.message) "canceled" ||
  strIncludes (lowerStr e.message) "deadline" ||
  e.code == some 1

/- Cancellation bridge event handlers (GrpcContextFactory.setupCancellation,
factory.ts lines 109-132).  The cancellation token is modelled by its one
observable bit: cancelled or not.  context.cancel() is the one-way
transition to true. -/

/-- Handler registered on the transport "cancelled" event: unconditional
context.cancel(). -/
def onCancelledEvent (_tok : Bool) : Bool := true

/-- Handler registered on the transport "close" event: the body is empty
(deliberately no cancel, since close may be normal completion). -/
def onCloseEvent (tok : Bool) : Bool := tok

/-- Handler registered on the transport "error" event: cancel only when
isCancellationError classifies the error as cancellation-related. -/
def onErrorEvent (e : JsError) (tok : Bool) : Bool :=
  if isCancellationError e then true else tok

/-- The value of call.getDeadline?.() as the factory can observe it: a Date,
a plain number of epoch milliseconds, the Infinity sentinel used by grpc-js
for "no deadline", or an absent accessor. -/
inductive JsDeadline where
  | date (t : Int)
  | num (t : Int)
  | infinity
  | absent

/-- GrpcContextFactory.extractDeadline (factory.ts lines 197-208): the guard
`deadline && deadline !== Infinity` makes the numeric deadline 0 falsy (so it
is treated as absent), Infinity is explicitly excluded, and a Date is always
truthy. -/
def extractDeadline : JsDeadline → Option Int
  | .date t => some t
  | .num t => if t = 0 then none else some t
  | .infinity => none
  | .absent => none

/-- Deadline part of GrpcContextFactory.setupCancellation (factory.ts lines
134-153), reduced to its synchronous effect on the token at context-creation
time: with a deadline strictly in the future a timer is armed (token left
active); with a deadline not in the future context.cancel() runs
synchronously.  Returns the token state right after setup. -/
def setupCancellationToken (dl : JsDeadline) (now : Int) : Bool :=
  match extractDeadline dl with
  | none => false
  | some d => if d - now > 0 then false else true

/- Identifier generation and parsing (src/utils/id-generator.ts). -/

/-- Character for one base-36 digit, lowercase as JS Number.toString(36)
produces. -/
def base36DigitChar (n : Nat) : Char :=
  if n < 10 then Char.ofNat (n + 48) else Char.ofNat (n + 87)

/-- Fuelled core of the base-36 rendering (repeated division, most
significant digit first); fuel n+1 always suffices for input n. -/
def natToBase36Core : Nat → Nat → List Char → List Char
  | 0, _, acc => acc
  | fuel + 1, n, acc =>
    if n < 36 then base36DigitChar (n % 36) :: acc
    else natToBase36Core fuel (n / 36) (base36DigitChar (n % 36) :: acc)

/-- Digit list of the base-36 rendering of n. -/
def natToBase36Digits (n : Nat) : List Char := natToBase36Core (n + 1) n []

/-- Model of JS Number.prototype.toString(36) for a nonnegative integer. -/
def natToBase36 (n : Nat) : String := String.mk (natToBase36Digits n)

/-- generateTraceId (id-generator.ts lines 10-14): grpc tag, base-36 clock
reading, random suffix.  The clock value and the random suffix are explicit
parameters of the model. -/
def generateTraceId (now : Nat) (random : String) : String :=
  "grpc-" ++ natToBase36 now ++ "-" ++ random

/-- generateRequestId (id-generator.ts lines 19-23), same shape with the req
tag. -/
def generateRequestId (now : Nat) (random : String) : String :=
  "req-" ++ natToBase36 now ++ "-" ++ random

/-- Numeric value of one base-36 digit character, case-insensitive, none for
a non-digit (the digit alphabet of JS parseInt with radix 36). -/
def base36DigitVal (c : Char) : Option Nat :=
  if 48 ≤ c.toNat ∧ c.toNat ≤ 57 then some (c.toNat - 48)
  else if 97 ≤ c.toNat ∧ c.toNat ≤ 122 then some (c.toNat - 87)
  else if 65 ≤ c.toNat ∧ c.toNat ≤ 90 then some (c.toNat - 55)
  else none

/-- Model of JS parseInt(s, 36): an optional sign, then the longest prefix of
base-36 digits; none models NaN (no digit found).  Leading whitespace
trimming is not modelled; no input the adapter produces carries whitespace. -/
def parseIntBase36 (s : String) : Option Int :=
  let signAndRest : Int × List Char :=
    match s.data with
    | [] => (1, [])
    | c :: t => if c = '-' then (-1, t) else if c = '+' then (1, t) else (1, c :: t)
  let digits := signAndRest.2.takeWhile (fun c => (base36DigitVal c).isSome)
  match digits with
  | [] => none
  | _ :: _ =>
    some (signAndRest.1 * digits.foldl (fun a c => a * 36 + (((base36DigitVal c).getD 0 : Nat) : Int)) 0)

/-- Model of JS String.prototype.split('-') at the character-list level. -/
def splitOnDash : List Char → List (List Char)
  | [] => [[]]
  | c :: t =>
    if c = '-' then [] :: splitOnDash t
    else
      match splitOnDash t with
      | [] => [[c]]
      | h :: r => (c :: h) :: r

/-- Result record of parseTraceId: both fields optional, the empty record
models the bare object returned on unparseable input. -/
structure ParsedTraceId where
  timestamp : Option Int := none
  type : Option String := none
deriving DecidableEq

/-- parseTraceId (id-generator.ts lines 46-59): split on dashes; with at
least two parts, decode part 1 as base 36 and return it with part 0 as the
type; on NaN or fewer than two parts return the empty record. -/
def parseTraceId (traceId : String) : ParsedTraceId :=
  match splitOnDash traceId.data with
  | ty :: ts :: _ =>
    match parseIntBase36 (String.mk ts) with
    | some v => { timestamp := some v, type := some (String.mk ty) }
    | none => {}
  | _ => {}

/- Context factory: metadata access and trace-id precedence
(GrpcContextFactory.createContext / extractTraceId, factory.ts). -/

/-- A gRPC metadata collection: ordered mapping from header name to the list
of values stored under it (binary values already decoded to strings, as
metadataToRecord does). -/
def GrpcMetadata := List (String × List String)

/-- Metadata.get of @grpc/grpc-js: values under the case-normalized key
(grpc-js lowercases keys; we compare case-insensitively). -/
def mdGet (md : GrpcMetadata) (key : String) : List String :=
  match md.find? (fun p => lowerStr p.1 == lowerStr key) with
  | some p => p.2
  | none => []

/-- GrpcContextFactory.extractTraceId (factory.ts lines 166-169): first value
under the x-trace-id header, none when the header is absent. -/
def extractTraceId (md : GrpcMetadata) : Option String :=
  match mdGet md "x-trace-id" with
  | v :: _ => some v
  | [] => none

/-- Adapter options relevant to the modelled paths.  The configured generator
is modelled by the value it would return; errorTransformer is the optional
custom error-to-status mapping; enableCancellation is the tri-state option
field (cancellation is set up unless it is explicitly false). -/
structure GrpcAdapterOptions where
  generateTraceId : Option String := none
  generateRequestId : Option String := none
  errorTransformer : Option (JsError → StatusObject) := none
  enableCancellation : Option Bool := none

/-- JS `a || b` on an optional string: a present empty string is falsy. -/
def jsOrStr (a : Option String) (b : String) : String :=
  match a with
  | some s => if s = "" then b else s
  | none => b

/-- The traceId computation of GrpcContextFactory.createContext (factory.ts
lines 41-42): `extractTraceId(metadata) || (options.generateTraceId?.() ??
generateTraceId())`. -/
def contextTraceId (opts : GrpcAdapterOptions) (md : GrpcMetadata) (now : Nat) (random : String) : String :=
  jsOrStr (extractTraceId md)
    (match opts.generateTraceId with
     | some g => g
     | none => generateTraceId now random)

/- Middleware pipeline (StruktosInterceptor, struktos-interceptor.ts). -/

/-- Body value of the middleware response view, as sendErrorResponse inspects
it: absent, a string, or an object with optional error/message fields (the
shapes the adapter and its built-in interceptors produce; a null body, which
would crash sendErrorResponse, is not modelled). -/
inductive JsBody where
  | absent
  | str (s : String)
  | obj (error : Option String) (message : Option String)
deriving DecidableEq

/-- The StruktosResponse view of the middleware context: status code, body
and the terminal sent flag.  (The headers record is never read on the paths
the claims are about and is omitted.) -/
structure StruktosResponse where
  status : Nat
  body : JsBody := .absent
  sent : Bool
deriving DecidableEq

/-- The middleware-visible per-invocation state: the response view plus the
cancellation token of the ambient request context (context.isCancelled /
context.cancel are the only token operations middleware can perform). -/
structure MwCtx where
  response : StruktosResponse
  cancelled : Bool
deriving DecidableEq

/-- Deep embedding of one middleware's invoke body, the shapes a
IStruktosMiddleware can take on the pipeline: finish without proceeding,
transform the response view, cancel the ambient token, branch on the
context, throw, or call the proceed continuation and go on afterwards
(wrap-around semantics). -/
inductive MwProg where
  | done
  | modifyResp (f : StruktosResponse → StruktosResponse) (k : MwProg)
  | cancelTok (k : MwProg)
  | branch (c : MwCtx → Bool) (t e : MwProg)
  | throwErr (e : JsError)
  | proceed (k : MwProg)

/-- Instrumentation events of one wrapped invocation: entry into the
middleware at a pipeline index, and the run of the original handler. -/
inductive PEvent where
  | enter (i : Nat)
  | handlerRun
deriving DecidableEq

/-- State of one executePipeline run: the shared index cursor, the shared
middleware context, and the ghost trace of events. -/
structure PipeSt where
  index : Nat
  ctx : MwCtx
  log : List PEvent
deriving DecidableEq

/-- Result of a pipeline fragment: normal completion, or a JS exception
propagating out of the chain (carrying the state at the throw point, since
the shared context object keeps every mutation made before the throw). -/
inductive PRes where
  | ok (st : PipeSt)
  | err (e : JsError) (st : PipeSt)
deriving DecidableEq

/-- The two mutually recursive activities inside executePipeline
(struktos-interceptor.ts lines 209-220): running a middleware body, and the
shared `next` closure. -/
inductive PipeCall where
  | mw (p : MwProg) (st : PipeSt)
  | next (st : PipeSt)

/-- Fuelled interpreter of executePipeline.  `next` (the .next case) is the
closure of lines 212-217: if the shared index is below the middleware count,
post-increment it and invoke that middleware with the shared context and the
same `next`; otherwise do nothing.  The .mw cases interpret one middleware
body, where .proceed awaits next() and continues afterwards, and an exception
aborts the whole chain.  Fuel decreases on every step; none means fuel ran
out. -/
def runStep (mws : List MwProg) : Nat → PipeCall → Option PRes
  | 0, _ => none
  | fuel + 1, .next st =>
    if h : st.index < mws.length then
      runStep mws fuel
        (.mw mws[st.index]
          { index := st.index + 1, ctx := st.ctx, log := st.log ++ [.enter st.index] })
    else some (.ok st)
  | _ + 1, .mw .done st => some (.ok st)
  | fuel + 1, .mw (.modifyResp f k) st =>
    runStep mws fuel (.mw k { st with ctx := { st.ctx with response := f st.ctx.response } })
  | fuel + 1, .mw (.cancelTok k) st =>
    runStep mws fuel (.mw k { st with ctx := { st.ctx with cancelled := true } })
  | fuel + 1, .mw (.branch c t e) st =>
    runStep mws fuel (.mw (if c st.ctx then t else e) st)
  | _ + 1, .mw (.throwErr e) st => some (.err e st)
  | fuel + 1, .mw (.proceed k) st =>
    match runStep mws fuel (.next st) with
    | none => none
    | some (.err e st') => some (.err e st')
    | some (.ok st') => runStep mws fuel (.mw k st')

/-- StruktosInterceptor.executePipeline (lines 209-220): index starts at 0,
then await next(). -/
def executePipeline (mws : List MwProg) (fuel : Nat) (ctx : MwCtx) : Option PRes :=
  runStep mws fuel (.next { index := 0, ctx := ctx, log := [] })

/-- The initial response view built by createMiddlewareContext
(struktos-interceptor.ts lines 192-196): HttpStatus.OK, empty headers, not
sent. -/
def initialResponse : StruktosResponse := { status := 200, body := .absent, sent := false }

/-- Message argument of the error callback, from sendErrorResponse
(struktos-interceptor.ts lines 289-291): an object body contributes its
message field (JS-falsy empty string excluded), any other truthy body its
string form, with the literal Error as fallback. -/
def errMessageOfBody : JsBody → String
  | .obj _ m =>
    match m with
    | some s => if s = "" then "Error" else s
    | none => "Error"
  | .str s => if s = "" then "Error" else s
  | .absent => "Error"

/-- One invocation of the gRPC callback as wrapMethod can perform it: an
error status delivery or a success delivery. -/
inductive CbCall where
  | err (code : Int) (details : String)
  | success (resp : String)
deriving DecidableEq

/-- Observable outcome of one wrapped invocation: the callback invocations
performed (in order), whether the original handler ran, and the event log. -/
structure Outcome where
  callbacks : List CbCall
  handlerInvoked : Bool
  log : List PEvent
deriving DecidableEq

/-- Behaviour of the user-supplied unary handler: deliver a response through
its callback, deliver an error through its callback, or throw synchronously.
The handler calls its callback at most once (the contract of a unary gRPC
method implementation). -/
inductive HandlerBeh where
  | ok (resp : String)
  | cbErr (e : JsError)
  | thr (e : JsError)

/-- StruktosInterceptor.handleError (lines 326-342): custom errorTransformer
when configured, else the default one. -/
def transformError (opts : GrpcAdapterOptions) (e : JsError) : StatusObject :=
  match opts.errorTransformer with
  | some f => f e
  | none => defaultErrorTransformer e

/-- StruktosInterceptor.sendErrorResponse (lines 282-305) as the callback
invocation it performs: status translated through the table, details from
the body. -/
def sendErrorResponseCb (response : StruktosResponse) : CbCall :=
  .err (httpStatusToGrpcStatus response.status) (errMessageOfBody response.body)

/-- Post-pipeline part of StruktosInterceptor.wrapMethod (lines 122-159) for
a unary call with a callback present, composed with callOriginalMethod
(lines 225-258) and handleError: in order (1) a middleware-sent response
short-circuits through sendErrorResponse, (2) a cancelled token
short-circuits through sendCancelledResponse, (3) otherwise the original
handler runs; a handler callback error or synchronous throw rejects the
wrapper promise and lands in handleError, exactly like a middleware throw
escaping the pipeline (the .err case). -/
def wrapAfterPipeline (opts : GrpcAdapterOptions) (handler : HandlerBeh) : PRes → Outcome
  | .err e st =>
    { callbacks := [.err (transformError opts e).code (transformError opts e).details],
      handlerInvoked := false, log := st.log }
  | .ok st =>
    if st.ctx.response.sent then
      { callbacks := [sendErrorResponseCb st.ctx.response], handlerInvoked := false, log := st.log }
    else if st.ctx.cancelled then
      { callbacks := [.err GrpcStatusCode.CANCELLED "Request was cancelled"],
        handlerInvoked := false, log := st.log }
    else
      match handler with
      | .ok r =>
        { callbacks := [.success r], handlerInvoked := true, log := st.log ++ [.handlerRun] }
      | .cbErr e =>
        { callbacks := [.err (transformError opts e).code (transformError opts e).details],
          handlerInvoked := true, log := st.log ++ [.handlerRun] }
      | .thr e =>
        { callbacks := [.err (transformError opts e).code (transformError opts e).details],
          handlerInvoked := true, log := st.log ++ [.handlerRun] }

/-- StruktosInterceptor.wrapMethod (lines 122-159): build the middleware
context with the initial response view (createMiddlewareContext, lines
192-196) and the bridge-provided token state, execute the pipeline, then
dispatch on its result via wrapAfterPipeline. -/
def wrapMethodRun (opts : GrpcAdapterOptions) (mws : List MwProg) (fuel : Nat)
    (cancelled0 : Bool) (handler : HandlerBeh) : Option Outcome :=
  match executePipeline mws fuel { response := initialResponse, cancelled := cancelled0 } with
  | none => none
  | some pr => some (wrapAfterPipeline opts handler pr)

/-- A full wrapped unary invocation including the context-factory step
(runWithContext, factory.ts lines 81-104): the cancellation bridge is
attached unless enableCancellation is explicitly false, so the token enters
the pipeline in the state setupCancellation leaves it in. -/
def wrappedUnaryCall (opts : GrpcAdapterOptions) (mws : List MwProg) (fuel : Nat)
    (dl : JsDeadline) (now : Int) (handler : HandlerBeh) : Option Outcome :=
  let cancelled0 : Bool :=
    match opts.enableCancellation with
    | some false => false
    | _ => setupCancellationToken dl now
  wrapMethodRun opts mws fuel cancelled0 handler

/- Built-in rate-limit interceptor (createRateLimitInterceptor,
struktos-interceptor.ts lines 449-483). -/

/-- The process-wide per-key timestamp store of the rate limiter (the Map
captured by the interceptor closure), as an ordered association list. -/
def RateStore := List (String × List Int)

/-- Map.get of the store. -/
def storeGet (s : RateStore) (k : String) : Option (List Int) :=
  match s.find? (fun p => p.1 == k) with
  | some p => some p.2
  | none => none

/-- Map.set of the store (replace in place, else append). -/
def storeSet (s : RateStore) (k : String) (v : List Int) : RateStore :=
  match s with
  | [] => [(k, v)]
  | (k', v') :: t => if k' == k then (k, v) :: t else (k', v') :: storeSet t k v

/-- Result of one rate-limiter invocation: the store after the call, the
response view after the call, and whether next() was called. -/
structure RateLimitResult where
  store : RateStore
  response : StruktosResponse
  proceeded : Bool

/-- One invocation of the interceptor returned by createRateLimitInterceptor
(lines 456-481): key is ctx.request.ip || 'unknown'; prune the key's
timestamps to the sliding window (strictly newer than now - windowMs); at or
above maxRequests set 429 / body / sent and do not proceed (the store is not
written on this path); otherwise append now, write back, and proceed. -/
def rateLimitInvoke (maxRequests : Nat) (windowMs : Int) (requests : RateStore)
    (ip : Option String) (now : Int) (response : StruktosResponse) : RateLimitResult :=
  let key := jsOrStr ip "unknown"
  let windowStart := now - windowMs
  let timestamps0 := (storeGet requests key).getD []
  let timestamps := timestamps0.filter (fun t => windowStart < t)
  if maxRequests ≤ timestamps.length then
    { store := requests,
      response := { response with
        status := 429,
        body := .obj (some "Too Many Requests") (some "Rate limit exceeded"),
        sent := true },
      proceeded := false }
  else
    { store := storeSet requests key (timestamps ++ [now]), response := response, proceeded := true }

/- Helper definitions for the verification layer. -/

/-- State component of a pipeline result (on an exception, the state at the
throw point). -/
def resSt : PRes → PipeSt
  | .ok st => st
  | .err _ st => st

/-- State component of a pipeline activity. -/
def stOf : PipeCall → PipeSt
  | .mw _ st => st
  | .next st => st

/-- A pass-through middleware in the sense of the pipeline contract: run some
code before proceed, call proceed exactly once, run some code after. -/
def passMw (pre post : StruktosResponse → StruktosResponse) : MwProg :=
  .modifyResp pre (.proceed (.modifyResp post .done))

/-- A short-circuiting middleware: touch the response and return without
calling proceed. -/
def stopMw (f : StruktosResponse → StruktosResponse) : MwProg :=
  .modifyResp f .done

/-- Wrap-around composition of a list of pass-through middleware: pres apply
outside-in, posts inside-out. -/
def applyChain :
    List ((StruktosResponse → StruktosResponse) × (StruktosResponse → StruktosResponse)) →
    StruktosResponse → StruktosResponse
  | [], r => r
  | p :: rest, r => p.2 (applyChain rest (p.1 r))

/-- Wrap-around composition of pass-through middleware around a final
short-circuiting one. -/
def applyChainStop :
    List ((StruktosResponse → StruktosResponse) × (StruktosResponse → StruktosResponse)) →
    (StruktosResponse → StruktosResponse) → StruktosResponse → StruktosResponse
  | [], g, r => g r
  | p :: rest, g, r => p.2 (applyChainStop rest g (p.1 r))

/-- The event trace of entering middleware i, i+1, ..., i+k-1 in order. -/
def entersFrom : Nat → Nat → List PEvent
  | _, 0 => []
  | i, k + 1 => .enter i :: entersFrom (i + 1) k

/-- Well-formed pipeline traces: a run whose cursor starts at lo enters
middleware at strictly increasing indices, each at least lo, and ends with
the cursor at hi (hi at least one past every entered index). -/
inductive IncrEnters : Nat → List PEvent → Nat → Prop
  | nil : ∀ {lo hi}, lo ≤ hi → IncrEnters lo [] hi
  | cons : ∀ {lo i Δ hi}, lo ≤ i → IncrEnters (i + 1) Δ hi → IncrEnters lo (.enter i :: Δ) hi

/- Basic unfolding equations of the pipeline interpreter. -/

theorem runStep_next (mws : List MwProg) (fuel : Nat) (st : PipeSt) :
    runStep mws (fuel + 1) (.next st) =
      (if h : st.index < mws.length then
        runStep mws fuel
          (.mw mws[st.index]
            { index := st.index + 1, ctx := st.ctx, log := st.log ++ [.enter st.index] })
      else some (.ok st)) := rfl

theorem runStep_done (mws : List MwProg) (fuel : Nat) (st : PipeSt) :
    runStep mws (fuel + 1) (.mw .done st) = some (.ok st) := rfl

theorem runStep_modify (mws : List MwProg) (fuel : Nat)
    (f : StruktosResponse → StruktosResponse) (k : MwProg) (st : PipeSt) :
    runStep mws (fuel + 1) (.mw (.modifyResp f k) st) =
      runStep mws fuel (.mw k { st with ctx := { st.ctx with response := f st.ctx.response } }) := rfl

theorem runStep_cancel (mws : List MwProg) (fuel : Nat) (k : MwProg) (st : PipeSt) :
    runStep mws (fuel + 1) (.mw (.cancelTok k) st) =
      runStep mws fuel (.mw k { st with ctx := { st.ctx with cancelled := true } }) := rfl

theorem runStep_branch (mws : List MwProg) (fuel : Nat)
    (c : MwCtx → Bool) (t e : MwProg) (st : PipeSt) :
    runStep mws (fuel + 1) (.mw (.branch c t e) st) =
      runStep mws fuel (.mw (if c st.ctx then t else e) st) := rfl

theorem runStep_throw (mws : List MwProg) (fuel : Nat) (e : JsError) (st : PipeSt) :
    runStep mws (fuel + 1) (.mw (.throwErr e) st) = some (.err e st) := rfl

theorem runStep_proceed (mws : List MwProg) (fuel : Nat) (k : MwProg) (st : PipeSt) :
    runStep mws (fuel + 1) (.mw (.proceed k) st) =
      (match runStep mws fuel (.next st) with
       | none => none
       | some (.err e st') => some (.err e st')
       | some (.ok st') => runStep mws fuel (.mw k st')) := rfl

/-- Fuel monotonicity: a run that completes within some fuel completes with
the same result given more fuel. -/
theorem runStep_mono (mws : List MwProg) :
    ∀ fuel fuel' c r, fuel ≤ fuel' → runStep mws fuel c = some r →
      runStep mws fuel' c = some r := by
  intro fuel
  induction fuel with
  | zero => intro fuel' c r _ h; simp [runStep] at h
  | succ fuel ih =>
    intro fuel' c r hle h
    obtain ⟨f', rfl⟩ : ∃ f', fuel' = f' + 1 := ⟨fuel' - 1, by omega⟩
    have hff : fuel ≤ f' := by omega
    match c with
    | .next st =>
      rw [runStep_next] at h ⊢
      split at h
      · rename_i hlt
        rw [dif_pos hlt]
        exact ih f' _ r hff h
      · rename_i hge
        rw [dif_neg hge]
        exact h
    | .mw .done st =>
      rw [runStep_done] at h ⊢; exact h
    | .mw (.modifyResp f k) st =>
      rw [runStep_modify] at h ⊢
      exact ih f' _ r hff h
    | .mw (.cancelTok k) st =>
      rw [runStep_cancel] at h ⊢
      exact ih f' _ r hff h
    | .mw (.branch c t e) st =>
      rw [runStep_branch] at h ⊢
      exact ih f' _ r hff h
    | .mw (.throwErr e) st =>
      rw [runStep_throw] at h ⊢; exact h
    | .mw (.proceed k) st =>
      rw [runStep_proceed] at h ⊢
      cases hn : runStep mws fuel (.next st) with
      | none => rw [hn] at h; cases h
      | some pr =>
        rw [hn] at h
        rw [ih f' _ pr hff hn]
        cases pr with
        | err e st' => exact h
        | ok st' => exact ih f' _ r hff h

/- Properties of well-formed pipeline traces. -/

theorem IncrEnters.le_hi : ∀ {lo Δ hi}, IncrEnters lo Δ hi → lo ≤ hi := by
  intro lo Δ hi h
  induction h with
  | nil h => exact h
  | cons hlo _ ih => omega

theorem IncrEnters.weaken : ∀ {lo lo' Δ hi}, lo' ≤ lo → IncrEnters lo Δ hi → IncrEnters lo' Δ hi := by
  intro lo lo' Δ hi hle h
  induction h generalizing lo' with
  | nil h => exact .nil (by omega)
  | cons hlo h ih => exact .cons (by omega) h

theorem IncrEnters.append : ∀ {lo Δ₁ mid Δ₂ hi},
    IncrEnters lo Δ₁ mid → IncrEnters mid Δ₂ hi → IncrEnters lo (Δ₁ ++ Δ₂) hi := by
  intro lo Δ₁ mid Δ₂ hi h₁ h₂
  induction h₁ with
  | nil h => exact h₂.weaken h
  | cons hlo _ ih => exact .cons hlo (ih h₂)

theorem IncrEnters.count_lt_lo : ∀ {lo Δ hi}, IncrEnters lo Δ hi →
    ∀ j, j < lo → Δ.count (PEvent.enter j) = 0 := by
  intro lo Δ hi h
  induction h with
  | nil _ => intro j _; rfl
  | cons hlo htl ih =>
    intro j hj
    rename_i lo i Δ hi
    have hji : (PEvent.enter i == PEvent.enter j) = false := by
      simp only [beq_eq_false_iff_ne, ne_eq, PEvent.enter.injEq]
      omega
    simp [List.count_cons, hji]
    exact ih j (by omega)

theorem IncrEnters.count_le_one : ∀ {lo Δ hi}, IncrEnters lo Δ hi →
    ∀ j, Δ.count (PEvent.enter j) ≤ 1 := by
  intro lo Δ hi h
  induction h with
  | nil _ => intro j; simp
  | cons hlo htl ih =>
    intro j
    rename_i lo i Δ hi
    by_cases hji : i = j
    · subst hji
      have h0 : Δ.count (PEvent.enter i) = 0 := htl.count_lt_lo i (by omega)
      simp [List.count_cons, h0]
    · have hne : (PEvent.enter i == PEvent.enter j) = false := by
        simp only [beq_eq_false_iff_ne, ne_eq, PEvent.enter.injEq]
        exact hji
      simp [List.count_cons, hne]
      exact ih j

/-- Index-cursor discipline of executePipeline: any completed fragment of a
run (normal or exceptional) extends the log by a well-formed trace — the
shared index only increases, and the entered indices are strictly
increasing. -/
theorem runStep_incr (mws : List MwProg) :
    ∀ fuel c r, runStep mws fuel c = some r →
      ∃ Δ, (resSt r).log = (stOf c).log ++ Δ ∧ IncrEnters (stOf c).index Δ (resSt r).index := by
  intro fuel
  induction fuel with
  | zero => intro c r h; simp [runStep] at h
  | succ fuel ih =>
    intro c r h
    match c with
    | .next st =>
      rw [runStep_next] at h
      split at h
      · rename_i hlt
        obtain ⟨Δ, hlog, hinc⟩ := ih _ r h
        refine ⟨.enter st.index :: Δ, ?_, ?_⟩
        · simpa [stOf, List.append_assoc] using hlog
        · exact .cons (Nat.le_refl _) (by simpa [stOf] using hinc)
      · cases h
        exact ⟨[], by simp [stOf, resSt], .nil (Nat.le_refl _)⟩
    | .mw .done st =>
      rw [runStep_done] at h
      cases h
      exact ⟨[], by simp [stOf, resSt], .nil (Nat.le_refl _)⟩
    | .mw (.modifyResp f k) st =>
      rw [runStep_modify] at h
      obtain ⟨Δ, hlog, hinc⟩ := ih _ r h
      exact ⟨Δ, by simpa [stOf] using hlog, by simpa [stOf] using hinc⟩
    | .mw (.cancelTok k) st =>
      rw [runStep_cancel] at h
      obtain ⟨Δ, hlog, hinc⟩ := ih _ r h
      exact ⟨Δ, by simpa [stOf] using hlog, by simpa [stOf] using hinc⟩
    | .mw (.branch c t e) st =>
      rw [runStep_branch] at h
      obtain ⟨Δ, hlog, hinc⟩ := ih _ r h
      exact ⟨Δ, by simpa [stOf] using hlog, by simpa [stOf] using hinc⟩
    | .mw (.throwErr e) st =>
      rw [runStep_throw] at h
      cases h
      exact ⟨[], by simp [stOf, resSt], .nil (Nat.le_refl _)⟩
    | .mw (.proceed k) st =>
      rw [runStep_proceed] at h
      cases hn : runStep mws fuel (.next st) with
      | none => rw [hn] at h; cases h
      | some pr =>
        rw [hn] at h
        obtain ⟨Δ₁, hlog₁, hinc₁⟩ := ih _ pr hn
        cases pr with
        | err e st' =>
          cases h
          exact ⟨Δ₁, by simpa [stOf, resSt] using hlog₁, by simpa [stOf, resSt] using hinc₁⟩
        | ok st' =>
          obtain ⟨Δ₂, hlog₂, hinc₂⟩ := ih _ r h
          refine ⟨Δ₁ ++ Δ₂, ?_, ?_⟩
          · simp only [stOf, resSt] at hlog₁ hlog₂ ⊢
            rw [hlog₂, hlog₁, List.append_assoc]
          · simp only [stOf, resSt] at hinc₁ hinc₂ ⊢
            exact hinc₁.append hinc₂

/- Closed-form runs of registration-ordered chains of pass-through
middleware, possibly broken by one short-circuiting middleware. -/

theorem runNext_passChain
    (fs : List ((StruktosResponse → StruktosResponse) × (StruktosResponse → StruktosResponse))) :
    ∀ k i r cx L fuel, i + k = fs.length → 3 * k + 2 ≤ fuel →
      runStep (fs.map fun p => passMw p.1 p.2) fuel (.next ⟨i, ⟨r, cx⟩, L⟩) =
        some (.ok ⟨fs.length, ⟨applyChain (fs.drop i) r, cx⟩, L ++ entersFrom i k⟩) := by
  intro k
  induction k with
  | zero =>
    intro i r cx L fuel hik hfuel
    obtain ⟨f, rfl⟩ : ∃ f, fuel = f + 1 := ⟨fuel - 1, by omega⟩
    rw [runStep_next]
    rw [dif_neg (by simp; omega)]
    have hdrop : fs.drop i = [] := List.drop_eq_nil_of_le (by omega)
    simp only [hdrop, applyChain, entersFrom, List.append_nil]
    exact congrArg (fun n => some (PRes.ok ⟨n, ⟨r, cx⟩, L⟩)) (by omega)
  | succ k ih =>
    intro i r cx L fuel hik hfuel
    have hi : i < fs.length := by omega
    obtain ⟨f, rfl⟩ : ∃ f, fuel = f + 5 := ⟨fuel - 5, by omega⟩
    have hi' : i < (fs.map fun p => passMw p.1 p.2).length := by simpa using hi
    rw [show f + 5 = (f + 4) + 1 from rfl, runStep_next, dif_pos hi']
    have hget : (fs.map fun p => passMw p.1 p.2)[i] = passMw fs[i].1 fs[i].2 := by
      simp
    rw [hget]
    show runStep _ ((f + 3) + 1) (.mw (.modifyResp fs[i].1
      (.proceed (.modifyResp fs[i].2 .done))) _) = _
    rw [runStep_modify]
    show runStep _ ((f + 2) + 1) (.mw (.proceed (.modifyResp fs[i].2 .done)) _) = _
    rw [runStep_proceed]
    have hih := ih (i + 1) (fs[i].1 r) cx (L ++ [.enter i]) (f + 2)
      (by omega) (by omega)
    rw [hih]
    show runStep _ ((f + 1) + 1) (.mw (.modifyResp fs[i].2 .done) _) = _
    rw [runStep_modify]
    show runStep _ (f + 1) (.mw .done _) = _
    rw [runStep_done]
    rw [List.drop_eq_getElem_cons hi]
    simp [applyChain, entersFrom, List.append_assoc]

theorem runNext_stopChain
    (fs : List ((StruktosResponse → StruktosResponse) × (StruktosResponse → StruktosResponse)))
    (g : StruktosResponse → StruktosResponse) (rest : List MwProg) :
    ∀ k i r cx L fuel, i + k = fs.length → 3 * k + 3 ≤ fuel →
      runStep ((fs.map fun p => passMw p.1 p.2) ++ stopMw g :: rest) fuel (.next ⟨i, ⟨r, cx⟩, L⟩) =
        some (.ok ⟨fs.length + 1, ⟨applyChainStop (fs.drop i) g r, cx⟩, L ++ entersFrom i (k + 1)⟩) := by
  intro k
  induction k with
  | zero =>
    intro i r cx L fuel hik hfuel
    obtain ⟨f, rfl⟩ : ∃ f, fuel = f + 3 := ⟨fuel - 3, by omega⟩
    have hi : i < ((fs.map fun p => passMw p.1 p.2) ++ stopMw g :: rest).length := by
      simp; omega
    rw [show f + 3 = (f + 2) + 1 from rfl, runStep_next, dif_pos hi]
    have hlen : (fs.map fun p => passMw p.1 p.2).length = i := by simp; omega
    have hget : ((fs.map fun p => passMw p.1 p.2) ++ stopMw g :: rest)[i] = stopMw g := by
      rw [List.getElem_append_right (show (fs.map fun p => passMw p.1 p.2).length ≤ i by omega)]
      simp [hlen]
    rw [hget]
    show runStep _ ((f + 1) + 1) (.mw (.modifyResp g .done) _) = _
    rw [runStep_modify]
    show runStep _ (f + 1) (.mw .done _) = _
    rw [runStep_done]
    have hdrop : fs.drop i = [] := List.drop_eq_nil_of_le (by omega)
    simp only [hdrop, applyChainStop, entersFrom]
    exact congrArg (fun n => some (PRes.ok ⟨n, ⟨g r, cx⟩, L ++ [.enter i]⟩))
      (show i + 1 = fs.length + 1 by omega)
  | succ k ih =>
    intro i r cx L fuel hik hfuel
    have hi : i < fs.length := by omega
    obtain ⟨f, rfl⟩ : ∃ f, fuel = f + 5 := ⟨fuel - 5, by omega⟩
    have hi' : i < ((fs.map fun p => passMw p.1 p.2) ++ stopMw g :: rest).length := by
      simp; omega
    rw [show f + 5 = (f + 4) + 1 from rfl, runStep_next, dif_pos hi']
    have hmaplt : i < (fs.map fun p => passMw p.1 p.2).length := by simpa using hi
    have hget : ((fs.map fun p => passMw p.1 p.2) ++ stopMw g :: rest)[i] =
        passMw fs[i].1 fs[i].2 := by
      rw [List.getElem_append_left hmaplt]
      simp
    rw [hget]
    show runStep _ ((f + 3) + 1) (.mw (.modifyResp fs[i].1
      (.proceed (.modifyResp fs[i].2 .done))) _) = _
    rw [runStep_modify]
    show runStep _ ((f + 2) + 1) (.mw (.proceed (.modifyResp fs[i].2 .done)) _) = _
    rw [runStep_proceed]
    have hih := ih (i + 1) (fs[i].1 r) cx (L ++ [.enter i]) (f + 2)
      (by omega) (by omega)
    rw [hih]
    show runStep _ ((f + 1) + 1) (.mw (.modifyResp fs[i].2 .done) _) = _
    rw [runStep_modify]
    show runStep _ (f + 1) (.mw .done _) = _
    rw [runStep_done]
    rw [List.drop_eq_getElem_cons hi]
    simp [applyChainStop, entersFrom, List.append_assoc]

theorem count_entersFrom : ∀ k i j,
    (entersFrom i k).count (PEvent.enter j) = if i ≤ j ∧ j < i + k then 1 else 0 := by
  intro k
  induction k with
  | zero =>
    intro i j
    simp only [entersFrom, List.count_nil]
    rw [if_neg (by omega)]
  | succ k ih =>
    intro i j
    simp only [entersFrom, List.count_cons, ih, beq_iff_eq, PEvent.enter.injEq]
    split_ifs <;> omega

/-- C3: every failure path of a wrapped invocation — middleware throw,
handler throw, handler error callback, response-sent short-circuit,
cancellation — as well as the success path, resolves to exactly one terminal
outcome: whenever the wrapped call completes, its callback is invoked exactly
once, and no exception escapes the pipeline boundary (the result is always a
normal outcome record). -/
theorem wrapAfterPipeline_err (opts : GrpcAdapterOptions) (handler : HandlerBeh)
    (e : JsError) (st : PipeSt) :
    wrapAfterPipeline opts handler (.err e st) =
      { callbacks := [.err (transformError opts e).code (transformError opts e).details],
        handlerInvoked := false, log := st.log } := rfl

theorem wrapAfterPipeline_ok (opts : GrpcAdapterOptions) (handler : HandlerBeh) (st : PipeSt) :
    wrapAfterPipeline opts handler (.ok st) =
      (if st.ctx.response.sent then
        { callbacks := [sendErrorResponseCb st.ctx.response], handlerInvoked := false, log := st.log }
      else if st.ctx.cancelled then
        { callbacks := [.err GrpcStatusCode.CANCELLED "Request was cancelled"],
          handlerInvoked := false, log := st.log }
      else
        match handler with
        | .ok r =>
          { callbacks := [.success r], handlerInvoked := true, log := st.log ++ [.handlerRun] }
        | .cbErr e =>
          { callbacks := [.err (transformError opts e).code (transformError opts e).details],
            handlerInvoked := true, log := st.log ++ [.handlerRun] }
        | .thr e =>
          { callbacks := [.err (transformError opts e).code (transformError opts e).details],
            handlerInvoked := true, log := st.log ++ [.handlerRun] }) := rfl

theorem wrapAfterPipeline_callbacks_length (opts : GrpcAdapterOptions) (handler : HandlerBeh)
    (pr : PRes) : (wrapAfterPipeline opts handler pr).callbacks.length = 1 := by
  cases pr with
  | err e st => rfl
  | ok st =>
    rw [wrapAfterPipeline_ok]
    split_ifs <;> cases handler <;> rfl

theorem C3_exactly_one_terminal_outcome (opts : GrpcAdapterOptions) (mws : List MwProg)
    (fuel : Nat) (cancelled0 : Bool) (handler : HandlerBeh) (o : Outcome) :
    wrapMethodRun opts mws fuel cancelled0 handler = some o → o.callbacks.length = 1 := by
  intro h
  unfold wrapMethodRun at h
  cases hp : executePipeline mws fuel { response := initialResponse, cancelled := cancelled0 } with
  | none => rw [hp] at h; cases h
  | some pr =>
    rw [hp] at h
    have ho : o = wrapAfterPipeline opts handler pr := by
      cases h; rfl
    rw [ho]
    exact wrapAfterPipeline_callbacks_length opts handler pr

/-- Witness for C3 at a concrete middleware-throw run. -/
theorem C3_witness :
    ({ callbacks := [CbCall.err 13 "boom"], handlerInvoked := false,
       log := [PEvent.enter 0] } : Outcome).callbacks.length = 1 :=
  C3_exactly_one_terminal_outcome {} [.throwErr { message := "boom" }] 5 false (.ok "r")
    { callbacks := [CbCall.err 13 "boom"], handlerInvoked := false, log := [PEvent.enter 0] }
    (by decide)

/-- C9: during one pipeline execution over any registered middleware list,
each middleware's invoke is entered at most once even if middleware call
their proceed continuation more than once — the shared index cursor only
increases — and a proceed call made once the cursor has advanced past the
end of the middleware list is a no-op (next() returns without invoking
anything and without changing the state). -/
theorem C9_each_middleware_at_most_once :
    (∀ (mws : List MwProg) (fuel : Nat) (ctx : MwCtx) (r : PRes),
      executePipeline mws fuel ctx = some r →
      ∀ i, (resSt r).log.count (PEvent.enter i) ≤ 1) ∧
    (∀ (mws : List MwProg) (fuel : Nat) (st : PipeSt), mws.length ≤ st.index →
      runStep mws (fuel + 1) (.next st) = some (.ok st)) := by
  constructor
  · intro mws fuel ctx r h i
    obtain ⟨Δ, hlog, hinc⟩ := runStep_incr mws fuel _ r h
    simp only [stOf] at hlog hinc
    rw [hlog]
    simpa using hinc.count_le_one i
  · intro mws fuel st hle
    rw [runStep_next, dif_neg (by omega)]

/-- Witness for C9: a two-middleware pipeline whose first middleware calls
proceed twice; the second middleware is still entered exactly once, and a
next() call at cursor 3 on an empty middleware list is a no-op. -/
theorem C9_witness :
    ((resSt (PRes.ok ⟨2, ⟨initialResponse, false⟩, [PEvent.enter 0, PEvent.enter 1]⟩)).log.count
        (PEvent.enter 1) ≤ 1) ∧
    runStep [] (5 + 1) (.next ⟨3, ⟨initialResponse, false⟩, []⟩) =
      some (.ok ⟨3, ⟨initialResponse, false⟩, []⟩) :=
  ⟨C9_each_middleware_at_most_once.1 [.proceed (.proceed .done), .done] 10
      ⟨initialResponse, false⟩
      (PRes.ok ⟨2, ⟨initialResponse, false⟩, [PEvent.enter 0, PEvent.enter 1]⟩)
      (by decide) 1,
   C9_each_middleware_at_most_once.2 [] 5 ⟨3, ⟨initialResponse, false⟩, []⟩ (by decide)⟩

/-- C1 (amended): for middleware m1..mN of pass-through shape registered in
order, one pipeline invocation enters every mi exactly once, in registration
order, before the handler.  If some mk does not call proceed, the middleware
after it are never invoked; and provided mk marked the response as sent, the
handler is also never invoked and the call resolves from the chain-final
response state (mk's write as post-processed by the earlier middleware's
post-proceed code).  (The original claim's stronger reading — the handler is
never invoked whenever mk merely fails to call proceed — is refuted by
C1_counterexample.) -/
theorem C1_pipeline_order_and_short_circuit :
    (∀ (opts : GrpcAdapterOptions)
       (fs : List ((StruktosResponse → StruktosResponse) × (StruktosResponse → StruktosResponse)))
       (handler : HandlerBeh) (fuel : Nat),
      3 * fs.length + 2 ≤ fuel →
      (applyChain fs initialResponse).sent = false →
      ∃ o, wrapMethodRun opts (fs.map fun p => passMw p.1 p.2) fuel false handler = some o ∧
        o.handlerInvoked = true ∧
        o.log = entersFrom 0 fs.length ++ [PEvent.handlerRun] ∧
        (∀ i, i < fs.length → o.log.count (PEvent.enter i) = 1) ∧
        (∀ i, fs.length ≤ i → o.log.count (PEvent.enter i) = 0)) ∧
    (∀ (opts : GrpcAdapterOptions)
       (fs : List ((StruktosResponse → StruktosResponse) × (StruktosResponse → StruktosResponse)))
       (g : StruktosResponse → StruktosResponse) (rest : List MwProg)
       (handler : HandlerBeh) (fuel : Nat),
      3 * fs.length + 3 ≤ fuel →
      (applyChainStop fs g initialResponse).sent = true →
      ∃ o, wrapMethodRun opts ((fs.map fun p => passMw p.1 p.2) ++ stopMw g :: rest) fuel
              false handler = some o ∧
        o.handlerInvoked = false ∧
        o.callbacks = [.err (httpStatusToGrpcStatus (applyChainStop fs g initialResponse).status)
                          (errMessageOfBody (applyChainStop fs g initialResponse).body)] ∧
        o.log = entersFrom 0 (fs.length + 1) ∧
        (∀ j, fs.length < j → o.log.count (PEvent.enter j) = 0)) := by
  constructor
  · intro opts fs handler fuel hfuel hsent
    have hpipe := runNext_passChain fs fs.length 0 initialResponse false [] fuel (by omega) (by omega)
    simp only [List.drop_zero, List.nil_append] at hpipe
    refine ⟨wrapAfterPipeline opts handler
        (.ok ⟨fs.length, ⟨applyChain fs initialResponse, false⟩, entersFrom 0 fs.length⟩),
      ?_, ?_, ?_, ?_, ?_⟩
    · unfold wrapMethodRun executePipeline
      rw [hpipe]
    · rw [wrapAfterPipeline_ok]
      rw [if_neg (by simp [hsent]), if_neg (by simp)]
      cases handler <;> rfl
    · rw [wrapAfterPipeline_ok]
      rw [if_neg (by simp [hsent]), if_neg (by simp)]
      cases handler <;> rfl
    · intro i hi
      rw [wrapAfterPipeline_ok]
      rw [if_neg (by simp [hsent]), if_neg (by simp)]
      have hcnt : (entersFrom 0 fs.length ++ [PEvent.handlerRun]).count (PEvent.enter i) = 1 := by
        rw [List.count_append, count_entersFrom, if_pos (by omega)]
        rfl
      cases handler <;> simpa using hcnt
    · intro i hi
      rw [wrapAfterPipeline_ok]
      rw [if_neg (by simp [hsent]), if_neg (by simp)]
      have hcnt : (entersFrom 0 fs.length ++ [PEvent.handlerRun]).count (PEvent.enter i) = 0 := by
        rw [List.count_append, count_entersFrom, if_neg (by omega)]
        rfl
      cases handler <;> simpa using hcnt
  · intro opts fs g rest handler fuel hfuel hsent
    have hpipe := runNext_stopChain fs g rest fs.length 0 initialResponse false [] fuel
      (by omega) (by omega)
    simp only [List.drop_zero, List.nil_append] at hpipe
    refine ⟨wrapAfterPipeline opts handler
        (.ok ⟨fs.length + 1, ⟨applyChainStop fs g initialResponse, false⟩,
          entersFrom 0 (fs.length + 1)⟩),
      ?_, ?_, ?_, ?_, ?_⟩
    · unfold wrapMethodRun executePipeline
      rw [hpipe]
    · rw [wrapAfterPipeline_ok]
      rw [if_pos (by simp [hsent])]
    · rw [wrapAfterPipeline_ok]
      rw [if_pos (by simp [hsent])]
      rfl
    · rw [wrapAfterPipeline_ok]
      rw [if_pos (by simp [hsent])]
    · intro j hj
      rw [wrapAfterPipeline_ok]
      rw [if_pos (by simp [hsent])]
      show (entersFrom 0 (fs.length + 1)).count (PEvent.enter j) = 0
      rw [count_entersFrom, if_neg (by omega)]

/-- Counterexample to C1 as stated: with m1 short-circuiting (no proceed, no
response written) and m2 a pass-through, the pipeline stops after m1 — but
the handler IS invoked and the call resolves from the handler, contradicting
the claim that the handler is never invoked when mk does not call proceed. -/
theorem C1_counterexample :
    wrapMethodRun {} [stopMw (fun r => r), passMw (fun r => r) (fun r => r)] 20 false (.ok "resp") =
      some { callbacks := [.success "resp"], handlerInvoked := true,
             log := [.enter 0, .handlerRun] } := by decide

/-- Witness for C1 at concrete inputs: a two-middleware pass chain runs both
in order before the handler, and a chain broken by a sent-marking stop
middleware never reaches the handler. -/
theorem C1_witness :
    (∃ o, wrapMethodRun {}
        ([((fun r => r), (fun r => r)), ((fun r => r), (fun r => r))].map fun p => passMw p.1 p.2)
        20 false (.ok "x") = some o ∧
      o.handlerInvoked = true ∧
      o.log = entersFrom 0 2 ++ [PEvent.handlerRun] ∧
      (∀ i, i < 2 → o.log.count (PEvent.enter i) = 1) ∧
      (∀ i, 2 ≤ i → o.log.count (PEvent.enter i) = 0)) ∧
    (∃ o, wrapMethodRun {}
        (([] : List ((StruktosResponse → StruktosResponse) × (StruktosResponse → StruktosResponse))).map
            (fun p => passMw p.1 p.2) ++
          stopMw (fun r => { r with status := 400, sent := true }) :: [passMw (fun r => r) (fun r => r)])
        20 false (.ok "x") = some o ∧
      o.handlerInvoked = false ∧
      o.callbacks = [.err (httpStatusToGrpcStatus
          (applyChainStop [] (fun r => { r with status := 400, sent := true }) initialResponse).status)
          (errMessageOfBody
            (applyChainStop [] (fun r => { r with status := 400, sent := true }) initialResponse).body)] ∧
      o.log = entersFrom 0 1 ∧
      (∀ j, 0 < j → o.log.count (PEvent.enter j) = 0)) :=
  ⟨C1_pipeline_order_and_short_circuit.1 {}
      [((fun r => r), (fun r => r)), ((fun r => r), (fun r => r))] (.ok "x") 20
      (by decide) (by decide),
   C1_pipeline_order_and_short_circuit.2 {} []
      (fun r => { r with status := 400, sent := true }) [passMw (fun r => r) (fun r => r)]
      (.ok "x") 20 (by decide) (by decide)⟩

/-- C2: whenever the middleware chain completes with the response view's sent
flag true, the wrapped call translates the response status through the
protocol table and delivers an error outcome through the callback, and the
original handler is never invoked; in particular a middleware that sets
status 400 and sent before proceed yields a callback error with the
INVALID_ARGUMENT code 3, the handler untouched. -/
theorem C2_sent_response_short_circuits :
    (∀ (opts : GrpcAdapterOptions) (mws : List MwProg) (fuel : Nat) (cancelled0 : Bool)
       (handler : HandlerBeh) (st : PipeSt),
      executePipeline mws fuel { response := initialResponse, cancelled := cancelled0 } =
          some (.ok st) →
      st.ctx.response.sent = true →
      wrapMethodRun opts mws fuel cancelled0 handler =
        some { callbacks := [.err (httpStatusToGrpcStatus st.ctx.response.status)
                                (errMessageOfBody st.ctx.response.body)],
               handlerInvoked := false, log := st.log }) ∧
    (wrapMethodRun {} [.modifyResp (fun r => { r with status := 400, sent := true }) (.proceed .done)]
        9 false (.ok "echo") =
      some { callbacks := [.err GrpcStatusCode.INVALID_ARGUMENT "Error"],
             handlerInvoked := false, log := [.enter 0] }) ∧
    GrpcStatusCode.INVALID_ARGUMENT = 3 := by
  refine ⟨?_, by decide, rfl⟩
  intro opts mws fuel cancelled0 handler st hp hsent
  unfold wrapMethodRun
  rw [hp]
  show some (wrapAfterPipeline opts handler (PRes.ok st)) = _
  rw [wrapAfterPipeline_ok, if_pos (by simp [hsent])]
  rfl

/-- Witness for C2 at a concrete sent-marking middleware. -/
theorem C2_witness :
    wrapMethodRun {} [stopMw (fun r => { r with status := 400, sent := true })] 9 false (.ok "x") =
      some { callbacks := [.err 3 "Error"], handlerInvoked := false, log := [.enter 0] } := by
  have h := C2_sent_response_short_circuits.1 {}
    [stopMw (fun r => { r with status := 400, sent := true })] 9 false (.ok "x")
    ⟨1, ⟨{ status := 400, body := .absent, sent := true }, false⟩, [.enter 0]⟩
    (by decide) rfl
  simpa using h

/-- C5 (amended): for every call whose transport deadline extracts to a
timestamp (a Date, or a nonzero numeric deadline — the source's truthiness
guard drops the numeric value 0) that is not in the future at
context-creation time, with cancellation enabled, the bridge cancels the
token synchronously during setup, so the token is already cancelled before
the handler could run and the invocation resolves with the CANCELLED outcome
instead of invoking the handler. -/
theorem C5_past_deadline_cancels (opts : GrpcAdapterOptions) (dl : JsDeadline) (now d : Int)
    (handler : HandlerBeh) (fuel : Nat) :
    opts.enableCancellation ≠ some false →
    extractDeadline dl = some d → d ≤ now → 1 ≤ fuel →
    setupCancellationToken dl now = true ∧
    wrappedUnaryCall opts [] fuel dl now handler =
      some { callbacks := [.err GrpcStatusCode.CANCELLED "Request was cancelled"],
             handlerInvoked := false, log := [] } := by
  intro hen hdl hpast hfuel
  have htok : setupCancellationToken dl now = true := by
    unfold setupCancellationToken
    rw [hdl]
    show (if d - now > 0 then false else true) = true
    rw [if_neg (by omega)]
  refine ⟨htok, ?_⟩
  unfold wrappedUnaryCall
  have hcan : (match opts.enableCancellation with
      | some false => false
      | _ => setupCancellationToken dl now) = true := by
    cases hoc : opts.enableCancellation with
    | none => simpa using htok
    | some b =>
      cases b with
      | false => exact absurd hoc hen
      | true => simpa using htok
  rw [hcan]
  obtain ⟨f, rfl⟩ : ∃ f, fuel = f + 1 := ⟨fuel - 1, by omega⟩
  unfold wrapMethodRun executePipeline
  have hrun : runStep [] (f + 1)
      (.next { index := 0, ctx := { response := initialResponse, cancelled := true }, log := [] }) =
      some (.ok { index := 0, ctx := { response := initialResponse, cancelled := true }, log := [] }) := by
    rw [runStep_next, dif_neg (by simp)]
  show (match runStep [] (f + 1)
      (.next { index := 0, ctx := { response := initialResponse, cancelled := true }, log := [] }) with
    | none => none
    | some pr => some (wrapAfterPipeline opts handler pr)) = _
  rw [hrun]
  show some (wrapAfterPipeline opts handler
    (PRes.ok { index := 0, ctx := { response := initialResponse, cancelled := true }, log := [] })) = _
  rw [wrapAfterPipeline_ok, if_neg (by simp [initialResponse]), if_pos rfl]

/-- Counterexample to C5 as stated: a numeric transport deadline of 0 (the
epoch — strictly in the past at now = 1000) is JS-falsy, so extractDeadline
drops it, the token is NOT cancelled at setup, and the handler IS invoked. -/
theorem C5_counterexample :
    ((0 : Int) < 1000) ∧
    extractDeadline (.num 0) = none ∧
    setupCancellationToken (.num 0) 1000 = false ∧
    wrappedUnaryCall {} [] 3 (.num 0) 1000 (.ok "r") =
      some { callbacks := [.success "r"], handlerInvoked := true,
             log := [.handlerRun] } := by decide

/-- Witness for C5 at a concrete past Date deadline. -/
theorem C5_witness :
    setupCancellationToken (.date 5) 10 = true ∧
    wrappedUnaryCall {} [] 3 (.date 5) 10 (.ok "r") =
      some { callbacks := [.err GrpcStatusCode.CANCELLED "Request was cancelled"],
             handlerInvoked := false, log := [] } :=
  C5_past_deadline_cancels {} (.date 5) 10 5 (.ok "r") 3 (by simp) rfl (by omega) (by omega)

/-- C6: with the cancellation bridge attached, a transport close event alone
never transitions the token to cancelled; a transport error event cancels
the token exactly when the error is classified as cancellation-related (its
lowercased message contains the cancellation or deadline vocabulary, or it
carries the transport CANCELLED status code 1); all other error events leave
an active token active.  Checked both as general laws of the registered
handlers and on concrete errors. -/
theorem C6_close_never_cancels_error_conditional :
    (∀ tok : Bool, onCloseEvent tok = tok) ∧
    (∀ (e : JsError) (tok : Bool), onErrorEvent e tok = (tok || isCancellationError e)) ∧
    (∀ e : JsError, isCancellationError e =
      (strIncludes (lowerStr e.message) "cancelled" ||
       strIncludes (lowerStr e.message) "canceled" ||
       strIncludes (lowerStr e.message) "deadline" ||
       e.code == some 1)) ∧
    onCloseEvent false = false ∧
    onErrorEvent { message := "Connection reset by peer" } false = false ∧
    onErrorEvent { message := "Deadline exceeded" } false = true ∧
    onErrorEvent { message := "call was CANCELLED by client" } false = true ∧
    onErrorEvent { message := "boom", code := some 1 } false = true := by
  refine ⟨fun tok => rfl, ?_, fun e => rfl, rfl, by decide, by decide, by decide, by decide⟩
  intro e tok
  unfold onErrorEvent
  cases h : isCancellationError e with
  | false => simp [h]
  | true => simp [h]

/-- Helper for C8: the translation table sends every status code outside its
key set to INTERNAL. -/
theorem httpStatusToGrpcStatus_not_mem (s : Nat) (hs : s ∉ grpcMappingKeys) :
    httpStatusToGrpcStatus s = GrpcStatusCode.INTERNAL := by
  unfold httpStatusToGrpcStatus
  split
  all_goals first
    | rfl
    | (exfalso; apply hs; simp [grpcMappingKeys])

/-- C8: the status translation table is total with INTERNAL as default —
each of the twelve generic statuses maps to exactly one protocol code, every
status code outside the table maps to INTERNAL, and a handler error carrying
neither an embedded numeric protocol code nor a recognized HTTP-like status
code is translated by the default transformer to INTERNAL (never silently
swallowed). -/
theorem C8_translation_total_internal_default :
    (httpStatusToGrpcStatus 200 = GrpcStatusCode.OK ∧
     httpStatusToGrpcStatus 400 = GrpcStatusCode.INVALID_ARGUMENT ∧
     httpStatusToGrpcStatus 401 = GrpcStatusCode.UNAUTHENTICATED ∧
     httpStatusToGrpcStatus 403 = GrpcStatusCode.PERMISSION_DENIED ∧
     httpStatusToGrpcStatus 404 = GrpcStatusCode.NOT_FOUND ∧
     httpStatusToGrpcStatus 409 = GrpcStatusCode.ALREADY_EXISTS ∧
     httpStatusToGrpcStatus 429 = GrpcStatusCode.RESOURCE_EXHAUSTED ∧
     httpStatusToGrpcStatus 499 = GrpcStatusCode.CANCELLED ∧
     httpStatusToGrpcStatus 500 = GrpcStatusCode.INTERNAL ∧
     httpStatusToGrpcStatus 501 = GrpcStatusCode.UNIMPLEMENTED ∧
     httpStatusToGrpcStatus 503 = GrpcStatusCode.UNAVAILABLE ∧
     httpStatusToGrpcStatus 504 = GrpcStatusCode.DEADLINE_EXCEEDED) ∧
    (∀ s : Nat, s ∉ grpcMappingKeys → httpStatusToGrpcStatus s = GrpcStatusCode.INTERNAL) ∧
    (∀ e : JsError, e.code = none →
      (∀ sc, httpLikeStatusOf e = some sc → sc ∉ grpcMappingKeys) →
      (defaultErrorTransformer e).code = GrpcStatusCode.INTERNAL) := by
  refine ⟨by decide, httpStatusToGrpcStatus_not_mem, ?_⟩
  intro e hcode hsc
  unfold defaultErrorTransformer
  rw [hcode]
  cases hh : httpLikeStatusOf e with
  | none => rfl
  | some sc =>
    show httpStatusToGrpcStatus sc = GrpcStatusCode.INTERNAL
    exact httpStatusToGrpcStatus_not_mem sc (hsc sc hh)

/-- Witness for C8: the unmapped status 418 and a bare message-only error
both land on INTERNAL. -/
theorem C8_witness :
    httpStatusToGrpcStatus 418 = GrpcStatusCode.INTERNAL ∧
    (defaultErrorTransformer { message := "boom" }).code = GrpcStatusCode.INTERNAL :=
  ⟨C8_translation_total_internal_default.2.1 418 (by decide),
   C8_translation_total_internal_default.2.2 { message := "boom" } rfl
     (by intro sc h; simp [httpLikeStatusOf, jsTruthyNat] at h)⟩

/-- Counterexample to C4 as stated: with the trace header present AND a
custom trace-id generator configured, the claim says the generator's return
value wins — but createContext short-circuits on the header value, so the
context traceId is the header value, not the generator's. -/
theorem C4_counterexample :
    extractTraceId [("x-trace-id", ["abc"])] = some "abc" ∧
    contextTraceId { generateTraceId := some "gen" } [("x-trace-id", ["abc"])] 0 "r" = "abc" ∧
    contextTraceId { generateTraceId := some "gen" } [("x-trace-id", ["abc"])] 0 "r" ≠ "gen" := by
  refine ⟨by decide, by decide, by decide⟩

/-- C4 (amended): when the trace header is present with a non-empty value,
the context traceId equals that value exactly and no generator (configured
or built-in) is consulted, even if a custom generator is configured; only
when the header is absent — or present with the JS-falsy empty value — is
the configured generator used, else the built-in generator producing
grpc-(base36 timestamp)-(random suffix). -/
theorem C4_trace_id_precedence (opts : GrpcAdapterOptions) (md : GrpcMetadata)
    (now : Nat) (random : String) :
    (∀ v, extractTraceId md = some v → v ≠ "" → contextTraceId opts md now random = v) ∧
    (extractTraceId md = none →
      contextTraceId opts md now random =
        (match opts.generateTraceId with
         | some g => g
         | none => generateTraceId now random)) ∧
    (extractTraceId md = some "" →
      contextTraceId opts md now random =
        (match opts.generateTraceId with
         | some g => g
         | none => generateTraceId now random)) ∧
    generateTraceId now random = "grpc-" ++ natToBase36 now ++ "-" ++ random := by
  refine ⟨?_, ?_, ?_, rfl⟩
  · intro v hv hne
    unfold contextTraceId
    rw [hv]
    show (if v = "" then _ else v) = v
    rw [if_neg hne]
  · intro hv
    unfold contextTraceId
    rw [hv]
    rfl
  · intro hv
    unfold contextTraceId
    rw [hv]
    simp [jsOrStr]

/-- Witness for C4: the header value wins over a configured generator, and
with no header the built-in generator output is used verbatim. -/
theorem C4_witness :
    contextTraceId { generateTraceId := some "gen" } [("x-trace-id", ["abc"])] 7 "rnd" = "abc" ∧
    contextTraceId {} [] 7 "rnd" = generateTraceId 7 "rnd" :=
  ⟨(C4_trace_id_precedence { generateTraceId := some "gen" } [("x-trace-id", ["abc"])] 7 "rnd").1
      "abc" (by decide) (by decide),
   (C4_trace_id_precedence {} [] 7 "rnd").2.1 (by decide)⟩

/-- Map.set followed by Map.get on the same key returns the written value. -/
theorem storeGet_storeSet (s : RateStore) (k : String) (v : List Int) :
    storeGet (storeSet s k v) k = some v := by
  induction s with
  | nil => simp [storeSet, storeGet, List.find?]
  | cons p t ih =>
    unfold storeSet
    by_cases hk : p.1 == k
    · rw [if_pos hk]
      simp [storeGet, List.find?]
    · rw [if_neg hk]
      unfold storeGet at ih ⊢
      simp only [List.find?, hk]
      exact ih

/-- The rate limiter invocation with a non-empty client key, with the
`ctx.request.ip || 'unknown'` key resolution discharged. -/
theorem rateLimitInvoke_eq (maxR : Nat) (w : Int) (requests : RateStore) (key : String)
    (hkey : key ≠ "") (now : Int) (resp : StruktosResponse) :
    rateLimitInvoke maxR w requests (some key) now resp =
      (if maxR ≤ (((storeGet requests key).getD []).filter (fun t => now - w < t)).length then
        { store := requests,
          response := { resp with
            status := 429,
            body := .obj (some "Too Many Requests") (some "Rate limit exceeded"),
            sent := true },
          proceeded := false }
      else
        { store := storeSet requests key
            ((((storeGet requests key).getD []).filter (fun t => now - w < t)) ++ [now]),
          response := resp, proceeded := true }) := by
  unfold rateLimitInvoke
  simp [jsOrStr, hkey]

/-- C7: for the rate limiter configured with maxRequests = 2 over a 10000 ms
window: on every proceeding invocation the stored list for the key is the
pruned list (timestamps at or older than now - windowMs dropped) with the
current timestamp appended; and in the concrete scenario of three calls
under one key inside one window, the first two proceed and append while the
third is rejected with status 429, response marked sent, proceed not called
and the store left unchanged; a fourth call under a different key proceeds
unaffected. -/
theorem C7_rate_limit_window :
    (∀ (requests : RateStore) (key : String) (now : Int) (resp : StruktosResponse)
       (old : List Int),
      key ≠ "" →
      storeGet requests key = some old →
      (rateLimitInvoke 2 10000 requests (some key) now resp).proceeded = true →
      storeGet (rateLimitInvoke 2 10000 requests (some key) now resp).store key =
        some (old.filter (fun t => now - 10000 < t) ++ [now])) ∧
    (∀ (key key2 : String) (t1 t2 t3 t4 : Int) (resp : StruktosResponse),
      key ≠ "" → key2 ≠ "" → key ≠ key2 →
      t1 ≤ t2 → t2 ≤ t3 → t3 - 10000 < t1 →
      rateLimitInvoke 2 10000 [] (some key) t1 resp =
        { store := [(key, [t1])], response := resp, proceeded := true } ∧
      rateLimitInvoke 2 10000 [(key, [t1])] (some key) t2 resp =
        { store := [(key, [t1, t2])], response := resp, proceeded := true } ∧
      rateLimitInvoke 2 10000 [(key, [t1, t2])] (some key) t3 resp =
        { store := [(key, [t1, t2])],
          response := { resp with
            status := 429,
            body := .obj (some "Too Many Requests") (some "Rate limit exceeded"),
            sent := true },
          proceeded := false } ∧
      rateLimitInvoke 2 10000 [(key, [t1, t2])] (some key2) t4 resp =
        { store := [(key, [t1, t2]), (key2, [t4])], response := resp, proceeded := true }) := by
  constructor
  · intro requests key now resp old hkey hold hproc
    rw [rateLimitInvoke_eq 2 10000 requests key hkey now resp] at hproc ⊢
    rw [hold] at hproc ⊢
    simp only [Option.getD_some] at hproc ⊢
    by_cases hc : 2 ≤ ((old.filter (fun t => now - 10000 < t)).length)
    · rw [if_pos hc] at hproc
      cases hproc
    · rw [if_neg hc]
      exact storeGet_storeSet requests key _
  · intro key key2 t1 t2 t3 t4 resp hkey hkey2 hne ht12 ht23 hw
    have h1 : t2 - 10000 < t1 := by omega
    have h2 : t3 - 10000 < t1 := by omega
    have h3 : t3 - 10000 < t2 := by omega
    have hne' : (key == key2) = false := by
      simp only [beq_eq_false_iff_ne, ne_eq]
      exact hne
    refine ⟨?_, ?_, ?_, ?_⟩
    · rw [rateLimitInvoke_eq 2 10000 [] key hkey t1 resp]
      simp [storeGet, storeSet, List.find?]
    · rw [rateLimitInvoke_eq 2 10000 [(key, [t1])] key hkey t2 resp]
      simp [storeGet, storeSet, List.find?, List.filter, h1]
    · rw [rateLimitInvoke_eq 2 10000 [(key, [t1, t2])] key hkey t3 resp]
      simp [storeGet, storeSet, List.find?, List.filter, h2, h3]
    · rw [rateLimitInvoke_eq 2 10000 [(key, [t1, t2])] key2 hkey2 t4 resp]
      simp [storeGet, storeSet, List.find?, List.filter, hne']

/-- Witness for C7 at concrete keys and timestamps. -/
theorem C7_witness :
    rateLimitInvoke 2 10000 [] (some "1.2.3.4") 0 initialResponse =
      { store := [("1.2.3.4", [0])], response := initialResponse, proceeded := true } ∧
    rateLimitInvoke 2 10000 [("1.2.3.4", [0])] (some "1.2.3.4") 1 initialResponse =
      { store := [("1.2.3.4", [0, 1])], response := initialResponse, proceeded := true } ∧
    rateLimitInvoke 2 10000 [("1.2.3.4", [0, 1])] (some "1.2.3.4") 2 initialResponse =
      { store := [("1.2.3.4", [0, 1])],
        response := { initialResponse with
          status := 429,
          body := .obj (some "Too Many Requests") (some "Rate limit exceeded"),
          sent := true },
        proceeded := false } ∧
    rateLimitInvoke 2 10000 [("1.2.3.4", [0, 1])] (some "5.6.7.8") 3 initialResponse =
      { store := [("1.2.3.4", [0, 1]), ("5.6.7.8", [3])], response := initialResponse,
        proceeded := true } := by
  have h := C7_rate_limit_window.2 "1.2.3.4" "5.6.7.8" 0 1 2 3 initialResponse
    (by decide) (by decide) (by decide) (by omega) (by omega) (by omega)
  exact h

/- Base-36 encode/decode lemmas for the id generator. -/

theorem natToBase36Core_succ (fuel n : Nat) (acc : List Char) :
    natToBase36Core (fuel + 1) n acc =
      (if n < 36 then base36DigitChar (n % 36) :: acc
       else natToBase36Core fuel (n / 36) (base36DigitChar (n % 36) :: acc)) := rfl

theorem digitVal_digitChar : ∀ d, d < 36 → base36DigitVal (base36DigitChar d) = some d := by decide

theorem digitChar_ne_dash : ∀ d, d < 36 → base36DigitChar d ≠ '-' := by decide

theorem digitChar_ne_plus : ∀ d, d < 36 → base36DigitChar d ≠ '+' := by decide

theorem natToBase36Core_fuel_irrel :
    ∀ n fuel fuel' acc, n < fuel → n < fuel' →
      natToBase36Core fuel n acc = natToBase36Core fuel' n acc := by
  intro n
  induction n using Nat.strong_induction_on with
  | _ n ih =>
    intro fuel fuel' acc h h'
    obtain ⟨f, rfl⟩ : ∃ f, fuel = f + 1 := ⟨fuel - 1, by omega⟩
    obtain ⟨f', rfl⟩ : ∃ g, fuel' = g + 1 := ⟨fuel' - 1, by omega⟩
    rw [natToBase36Core_succ, natToBase36Core_succ]
    by_cases h36 : n < 36
    · rw [if_pos h36, if_pos h36]
    · rw [if_neg h36, if_neg h36]
      exact ih (n / 36) (by omega) f f' _ (by omega) (by omega)

theorem natToBase36Core_append :
    ∀ fuel n acc, n < fuel →
      natToBase36Core fuel n acc = natToBase36Core fuel n [] ++ acc := by
  intro fuel
  induction fuel with
  | zero => intro n acc h; omega
  | succ f ih =>
    intro n acc h
    rw [natToBase36Core_succ, natToBase36Core_succ]
    by_cases h36 : n < 36
    · rw [if_pos h36, if_pos h36]
      rfl
    · rw [if_neg h36, if_neg h36]
      rw [ih (n / 36) (base36DigitChar (n % 36) :: acc) (by omega),
        ih (n / 36) [base36DigitChar (n % 36)] (by omega), List.append_assoc]
      rfl

theorem natToBase36Digits_lt (n : Nat) (h : n < 36) :
    natToBase36Digits n = [base36DigitChar n] := by
  unfold natToBase36Digits
  rw [natToBase36Core_succ, if_pos h, Nat.mod_eq_of_lt h]

theorem natToBase36Digits_ge (n : Nat) (h : 36 ≤ n) :
    natToBase36Digits n = natToBase36Digits (n / 36) ++ [base36DigitChar (n % 36)] := by
  unfold natToBase36Digits
  rw [natToBase36Core_succ, if_neg (by omega)]
  rw [natToBase36Core_fuel_irrel (n / 36) n (n / 36 + 1) _ (by omega) (by omega)]
  rw [natToBase36Core_append (n / 36 + 1) (n / 36) _ (by omega)]

theorem natToBase36Digits_mem :
    ∀ n c, c ∈ natToBase36Digits n → ∃ d, d < 36 ∧ c = base36DigitChar d := by
  intro n
  induction n using Nat.strong_induction_on with
  | _ n ih =>
    intro c hc
    by_cases h36 : n < 36
    · rw [natToBase36Digits_lt n h36] at hc
      simp at hc
      exact ⟨n, h36, hc⟩
    · rw [natToBase36Digits_ge n (by omega)] at hc
      rcases List.mem_append.mp hc with h | h
      · exact ih (n / 36) (by omega) c h
      · simp at h
        exact ⟨n % 36, by omega, h⟩

theorem natToBase36Digits_ne_nil (n : Nat) : natToBase36Digits n ≠ [] := by
  by_cases h36 : n < 36
  · rw [natToBase36Digits_lt n h36]
    simp
  · rw [natToBase36Digits_ge n (by omega)]
    simp

theorem natToBase36Digits_decode :
    ∀ n, (natToBase36Digits n).foldl
        (fun a c => a * 36 + (((base36DigitVal c).getD 0 : Nat) : Int)) 0 = (n : Int) := by
  intro n
  induction n using Nat.strong_induction_on with
  | _ n ih =>
    by_cases h36 : n < 36
    · rw [natToBase36Digits_lt n h36]
      simp [digitVal_digitChar n h36]
    · rw [natToBase36Digits_ge n (by omega), List.foldl_append]
      rw [ih (n / 36) (by omega)]
      simp only [List.foldl_cons, List.foldl_nil, digitVal_digitChar (n % 36) (by omega),
        Option.getD_some]
      omega

theorem takeWhile_of_all {α : Type} (p : α → Bool) :
    ∀ l : List α, (∀ c ∈ l, p c = true) → l.takeWhile p = l := by
  intro l
  induction l with
  | nil => intro _; rfl
  | cons c t ih =>
    intro h
    rw [List.takeWhile_cons, h c (by simp)]
    simp [ih fun x hx => h x (by simp [hx])]

theorem parseIntBase36_digits (n : Nat) :
    parseIntBase36 (String.mk (natToBase36Digits n)) = some (n : Int) := by
  obtain ⟨c, cs, hdg⟩ : ∃ c cs, natToBase36Digits n = c :: cs := by
    cases h : natToBase36Digits n with
    | nil => exact absurd h (natToBase36Digits_ne_nil n)
    | cons c cs => exact ⟨c, cs, rfl⟩
  obtain ⟨d, hd36, hcd⟩ := natToBase36Digits_mem n c (by rw [hdg]; simp)
  have hcd1 : ¬c = '-' := hcd ▸ digitChar_ne_dash d hd36
  have hcd2 : ¬c = '+' := hcd ▸ digitChar_ne_plus d hd36
  unfold parseIntBase36
  show (let signAndRest : Int × List Char :=
      match natToBase36Digits n with
      | [] => (1, [])
      | c :: t => if c = '-' then (-1, t) else if c = '+' then (1, t) else (1, c :: t)
    let digits := signAndRest.2.takeWhile (fun c => (base36DigitVal c).isSome)
    match digits with
    | [] => none
    | _ :: _ =>
      some (signAndRest.1 *
        digits.foldl (fun a c => a * 36 + (((base36DigitVal c).getD 0 : Nat) : Int)) 0)) =
    some (n : Int)
  rw [hdg]
  show (let digits := (if c = '-' then ((-1 : Int), cs) else if c = '+' then (1, cs)
          else (1, c :: cs)).2.takeWhile (fun c => (base36DigitVal c).isSome)
    match digits with
    | [] => none
    | _ :: _ =>
      some ((if c = '-' then ((-1 : Int), cs) else if c = '+' then (1, cs) else (1, c :: cs)).1 *
        digits.foldl (fun a c => a * 36 + (((base36DigitVal c).getD 0 : Nat) : Int)) 0)) =
    some (n : Int)
  rw [if_neg hcd1, if_neg hcd2]
  have hall : ∀ x ∈ c :: cs, (fun y => (base36DigitVal y).isSome) x = true := by
    intro x hx
    obtain ⟨d', hd36', hxd⟩ := natToBase36Digits_mem n x (by rw [hdg]; exact hx)
    simp [hxd, digitVal_digitChar d' hd36']
  rw [takeWhile_of_all _ (c :: cs) hall]
  show some ((1 : Int) * (c :: cs).foldl
      (fun a c => a * 36 + (((base36DigitVal c).getD 0 : Nat) : Int)) 0) = some (n : Int)
  rw [one_mul, ← hdg, natToBase36Digits_decode n]

theorem splitOnDash_ne_nil : ∀ l : List Char, splitOnDash l ≠ [] := by
  intro l
  cases l with
  | nil => simp [splitOnDash]
  | cons c t =>
    unfold splitOnDash
    by_cases hc : c = '-'
    · rw [if_pos hc]; simp
    · rw [if_neg hc]
      cases h : splitOnDash t with
      | nil => simp
      | cons h r => simp

theorem splitOnDash_sep :
    ∀ (xs ys : List Char), (∀ c ∈ xs, c ≠ '-') →
      splitOnDash (xs ++ '-' :: ys) = xs :: splitOnDash ys := by
  intro xs
  induction xs with
  | nil =>
    intro ys _
    show splitOnDash ('-' :: ys) = [] :: splitOnDash ys
    simp [splitOnDash]
  | cons c t ih =>
    intro ys h
    show splitOnDash (c :: (t ++ '-' :: ys)) = (c :: t) :: splitOnDash ys
    simp only [splitOnDash]
    rw [if_neg (h c (by simp))]
    rw [ih ys fun x hx => h x (by simp [hx])]

/-- C10: round-trip of trace-id generation and parsing — for every clock
reading t and random suffix, parseTraceId on the generated id returns type
grpc and timestamp exactly t (the base-36 second segment decodes back to the
original clock value); and for any input whose second dash-separated segment
has no parseable base-36 prefix, parseTraceId returns the empty record. -/
theorem C10_trace_id_roundtrip :
    (∀ (t : Nat) (random : String),
      parseTraceId (generateTraceId t random) =
        { timestamp := some (t : Int), type := some "grpc" }) ∧
    (∀ (s : String) (p1 p2 : List Char) (rest : List (List Char)),
      splitOnDash s.data = p1 :: p2 :: rest →
      parseIntBase36 (String.mk p2) = none →
      parseTraceId s = {}) := by
  constructor
  · intro t random
    have hdata : (generateTraceId t random).data =
        ['g', 'r', 'p', 'c'] ++ '-' :: (natToBase36Digits t ++ '-' :: random.data) := by
      show ("grpc-" ++ natToBase36 t ++ "-" ++ random).data = _
      simp [natToBase36, String.data_append, List.append_assoc]
    have hsplit : splitOnDash (generateTraceId t random).data =
        ['g', 'r', 'p', 'c'] :: natToBase36Digits t :: splitOnDash random.data := by
      rw [hdata]
      rw [splitOnDash_sep ['g', 'r', 'p', 'c'] _ (by decide)]
      rw [splitOnDash_sep (natToBase36Digits t) random.data (fun c hc => by
        obtain ⟨d, hd, hcd⟩ := natToBase36Digits_mem t c hc
        exact hcd ▸ digitChar_ne_dash d hd)]
    unfold parseTraceId
    rw [hsplit]
    show (match parseIntBase36 (String.mk (natToBase36Digits t)) with
      | some v =>
        ({ timestamp := some v, type := some (String.mk ['g', 'r', 'p', 'c']) } : ParsedTraceId)
      | none => {}) = _
    rw [parseIntBase36_digits t]
  · intro s p1 p2 rest hsplit hnan
    unfold parseTraceId
    rw [hsplit]
    show (match parseIntBase36 (String.mk p2) with
      | some v => ({ timestamp := some v, type := some (String.mk p1) } : ParsedTraceId)
      | none => {}) = _
    rw [hnan]

/-- Witness for C10 at a concrete clock value and a concrete unparseable
input. -/
theorem C10_witness :
    parseTraceId (generateTraceId 35 "xyz") =
      { timestamp := some ((35 : Nat) : Int), type := some "grpc" } ∧
    parseTraceId "abc-!!!" = {} :=
  ⟨C10_trace_id_roundtrip.1 35 "xyz",
   C10_trace_id_roundtrip.2 "abc-!!!" ['a', 'b', 'c'] ['!', '!', '!'] [] (by decide) (by decide)⟩
